import Mathlib

/-!
Verification development for the job-orchestration core of
LMSDownloader-telegram-bot (`src/BotHandler.py`, `src/LMSDownloaderHandler.py`).
Python strings are modelled as Lean `String`s (lists of characters), wall-clock
times and float-valued configuration entries as rationals (`Rat`), fallible
calls into external collaborators (telegram sends/edits, file sends) as oracle
functions returning `Except`/`Option`/`Bool` outcomes, and Python exceptions as
explicit `Except` error values.
-/

/-- Python constant `EXIT_WAIT_TIME = 5.0` (LMSDownloaderHandler.py line 39):
the grace window between the cooperative interrupt event and the forced kill,
also used as the global shutdown wait. -/
def EXIT_WAIT_TIME : Rat := 5

/-- Python constant `RESEND_FILE_AFTER_TIME = 3.0` (LMSDownloaderHandler.py
line 48): the fixed backoff slept after a failed file-send attempt. -/
def RESEND_FILE_AFTER_TIME : Rat := 3

/-- Python constant `MAX_FILES_RETRIES = 3` (LMSDownloaderHandler.py line 51):
the maximum number of attempts to send one artifact file. -/
def MAX_FILES_RETRIES : Nat := 3

/-- Python constant `MARKDOWN_ESCAPE` (BotHandler.py line 43): the characters
escaped with a backslash before a markdown message is sent. -/
def MARKDOWN_ESCAPE : List String :=
  ["_", "*", "[", "]", "(", ")", "~", ">", "#", "+", "-", "=", "|",
   "\x7b", "\x7d", ".", "!"]

/-- Markdown escaping loop inside `send_safe` (BotHandler.py lines 110-113):
every occurrence of each escape character is replaced, in list order, by a
backslash followed by that character. -/
def escape_markdown (text : String) : String :=
  MARKDOWN_ESCAPE.foldl (fun t c => t.replace c ("\\" ++ c)) text

/-- The `text.replace("\\n", "\n").replace("\\t", "\t")` transformation that
`send_safe` applies to the message body just before each send/edit call
(BotHandler.py lines 118, 127, 135, 145). -/
def unescape_whitespace (t : String) : String :=
  (t.replace "\\n" "\n").replace "\\t" "\t"

/-- Outcomes of the four fallible telegram primitives that `send_safe` can
invoke: `context.bot.send_message`, `context.bot.edit_message_text`, and the
token-based `telegram.Bot(token).send_message` / `.edit_message_text`.
Arguments are the chat id, (for edits) the message id, and the final message
body; an `Except.error` value models the call raising an exception, an
`Except.ok` value carries the `message_id` of the returned message. -/
structure Transport where
  ctxSend : Nat → String → Except String Nat
  ctxEdit : Nat → Nat → String → Except String Nat
  tokSend : Nat → String → Except String Nat
  tokEdit : Nat → Nat → String → Except String Nat

/-- Body of the `try` block of `BotHandler.send_safe` (lines 108-150): escape
markdown if requested, then select one of the four primitives.  Python checks
`if not edit_message_id`, so an `edit_message_id` of `None` or of the falsy
integer `0` sends a new message; any other id edits that message. -/
def send_safe_try_body (t : Transport) (chat_id : Nat) (text : String)
    (hasContext : Bool) (parse_markdown : Bool) (edit_message_id : Option Nat) :
    Except String Nat :=
  let escaped := if parse_markdown then escape_markdown text else text
  let body := unescape_whitespace escaped
  match edit_message_id with
  | none => if hasContext then t.ctxSend chat_id body else t.tokSend chat_id body
  | some m =>
    if m = 0 then
      if hasContext then t.ctxSend chat_id body else t.tokSend chat_id body
    else
      if hasContext then t.ctxEdit chat_id m body else t.tokEdit chat_id m body

/-- `BotHandler.send_safe` (lines 90-154): runs the try body; on success the
returned `message_id` is passed through, while any exception raised by the
underlying call is logged and swallowed (lines 151-154) and `None` is
returned.  The function itself never raises. -/
def send_safe (t : Transport) (chat_id : Nat) (text : String)
    (hasContext : Bool) (parse_markdown : Bool) (edit_message_id : Option Nat) :
    Option Nat :=
  match send_safe_try_body t chat_id text hasContext parse_markdown edit_message_id with
  | Except.ok mid => some mid
  | Except.error _ => none

/-- Result of the per-file retry loop of `_lms_downloader_process`
(LMSDownloaderHandler.py lines 252-272): the number of `send_document`
attempts made, the number of `time.sleep(RESEND_FILE_AFTER_TIME)` backoff
waits performed (one after every failed attempt), and whether the file was
eventually delivered. -/
structure SendAttemptResult where
  attempts : Nat
  waits : Nat
  delivered : Bool
deriving DecidableEq, Repr

/-- The `while True` retry loop at LMSDownloaderHandler.py lines 253-272,
with `succeeds n` the outcome of the n-th `send_document` attempt (an oracle
for the external telegram call).  `rc` is `retries_count`, `w` the number of
backoff waits so far; the loop increments `retries_count`, attempts the send,
breaks on success, otherwise sleeps `RESEND_FILE_AFTER_TIME` and breaks once
`retries_count >= MAX_FILES_RETRIES`.  The fuel argument only serves
termination; `send_file` supplies enough fuel for the loop to always exit
through one of its `break` statements. -/
def send_file_loop (succeeds : Nat → Bool) : Nat → Nat → Nat → SendAttemptResult
  | 0, rc, w => ⟨rc, w, false⟩
  | fuel+1, rc, w =>
    if succeeds (rc+1) then ⟨rc+1, w, true⟩
    else if MAX_FILES_RETRIES ≤ rc+1 then ⟨rc+1, w+1, false⟩
    else send_file_loop succeeds fuel (rc+1) (w+1)

/-- Delivery of a single artifact file with bounded retry
(LMSDownloaderHandler.py lines 250-272). -/
def send_file (succeeds : Nat → Bool) : SendAttemptResult :=
  send_file_loop succeeds MAX_FILES_RETRIES 0 0

/-- The `for file in return_data` loop (LMSDownloaderHandler.py lines
250-272): each artifact is processed in list order; the inner retry loop's
`break` statements only leave the inner loop, so a failed delivery never
aborts the remaining files.  `deliver f n` is the outcome of the n-th attempt
to send file `f`. -/
def send_all_files (deliver : String → Nat → Bool) : List String → List SendAttemptResult
  | [] => []
  | f :: rest => send_file (deliver f) :: send_all_files deliver rest

/-- Items travelling on the supervisor's internal logging queue, as the relay
thread classifies them (LMSDownloaderHandler.py lines 156-168): a genuine
`logging.LogRecord` carrying a message, the `None` end-of-stream marker, an
object whose exact type is `KeyboardInterrupt`, or any other non-`LogRecord`
object (e.g. an `Exception`, whose `str` is recorded here). -/
inductive LogItem where
  | record (msg : String)
  | endOfStream
  | interrupt
  | errorMarker (msg : String)
deriving DecidableEq, Repr

/-- Values the supervisor can receive from the worker's `return_queue`
(LMSDownloaderHandler.py lines 233-281), classified by the exact runtime type
tests the code performs: `None`; an object of exact type `KeyboardInterrupt`;
an object of exact type `Exception` with message `msg`; an instance of a
strict subclass of `Exception` (e.g. `ValueError`), with `tyName` standing
for Python's `str(type(return_data))` and `msg` for the original error text;
a `list` of file paths; or an object of any other type. -/
inductive RetData where
  | pyNone
  | keyboardInterrupt
  | exactException (msg : String)
  | exceptionSubclass (tyName msg : String)
  | fileList (files : List String)
  | otherData (tyName : String)
deriving DecidableEq, Repr

/-- What first terminates the supervisor's polling loop (lines 229-291):
either a value arrives on the worker's return queue, or the job's
`interrupt_event` is observed set (line 287), which raises
`KeyboardInterrupt()`. -/
inductive SupTrigger where
  | childReturned (r : RetData)
  | interruptEventSet
deriving DecidableEq, Repr

/-- A Python exception escaping the supervisor's `try` block, as dispatched by
its two handlers: `except (KeyboardInterrupt, SystemExit)` (line 293) or
`except Exception` (line 322). -/
inductive PyExc where
  | ki (reason : String)
  | exc (reason : String)
deriving DecidableEq, Repr

/-- Message of the exception raised at LMSDownloaderHandler.py line 237 when
the return queue hands back `None`. -/
def noResultReason : String := "Child process exited but doesn't return any data"

/-- Message of the exception raised at LMSDownloaderHandler.py lines 280-281
for a return value of unexpected runtime type; `tyName` stands for
`str(type(return_data))`. -/
def wrongTypeReason (tyName : String) : String :=
  "Child process exited but returning wrong type of data: " ++ tyName

/-- Outcome dispatch of the supervisor's polling loop (LMSDownloaderHandler.py
lines 229-291).  `None` raises the no-result `Exception` (line 237); an exact
`KeyboardInterrupt` re-raises as `KeyboardInterrupt` (line 241); an exact
`Exception` is re-raised as itself (line 245); a `list` runs the artifact
delivery loop and completes normally (lines 248-276); anything else —
including instances of strict subclasses of `Exception`, which fail the exact
`type(return_data) is Exception` test at line 244 — raises the wrong-type
`Exception` (lines 280-281).  An observed interrupt event raises a bare
`KeyboardInterrupt()` (line 288). -/
def supervisor_try_body (deliver : String → Nat → Bool) :
    SupTrigger → Except PyExc (List SendAttemptResult)
  | SupTrigger.childReturned RetData.pyNone => Except.error (PyExc.exc noResultReason)
  | SupTrigger.childReturned RetData.keyboardInterrupt =>
      Except.error (PyExc.ki "Keyboard interrupt from child process")
  | SupTrigger.childReturned (RetData.exactException msg) => Except.error (PyExc.exc msg)
  | SupTrigger.childReturned (RetData.fileList files) =>
      Except.ok (send_all_files deliver files)
  | SupTrigger.childReturned (RetData.exceptionSubclass tyName _) =>
      Except.error (PyExc.exc (wrongTypeReason tyName))
  | SupTrigger.childReturned (RetData.otherData tyName) =>
      Except.error (PyExc.exc (wrongTypeReason tyName))
  | SupTrigger.interruptEventSet => Except.error (PyExc.ki "")

/-- Terminal outcome of one supervisor run: normal completion with the
per-artifact delivery results, the interrupted path, or the failure path with
its recorded reason. -/
inductive SupOutcome where
  | completedOk (delivery : List SendAttemptResult)
  | interruptedBy (reason : String)
  | failedWith (reason : String)
deriving DecidableEq, Repr

/-- Observable summary of one `_lms_downloader_process` run: the outcome, the
first loop-terminating item the relay thread will dequeue from the internal
logging queue, and whether the job-scoped temporary directory was cleaned
up. -/
structure SupRun where
  outcome : SupOutcome
  terminalMarker : LogItem
  tempCleaned : Bool
deriving DecidableEq, Repr

/-- Epilogue of `_lms_downloader_process` (LMSDownloaderHandler.py lines
326-336), reached after the `try` body and after either exception handler: it
always puts the `None` end-of-stream marker on the internal logging queue
(line 327), joins the relay thread, and cleans up the temporary directory
(lines 334-336).  `handlerMarker` is the marker a handler put before the
epilogue's `None` (line 319 puts `KeyboardInterrupt()`, line 324 puts the
exception), so the first terminal item on the queue is the handler's marker
when present and otherwise the epilogue's `None`. -/
def supervisor_epilogue (outcome : SupOutcome) (handlerMarker : Option LogItem) : SupRun :=
  { outcome := outcome
    terminalMarker := handlerMarker.getD LogItem.endOfStream
    tempCleaned := true }

/-- `_lms_downloader_process` (LMSDownloaderHandler.py lines 85-336) from the
moment its polling loop is resolved by `trig`: the `try` body either completes
normally (list result), or raises; `except (KeyboardInterrupt, SystemExit)`
(lines 293-319) terminates the child and puts `KeyboardInterrupt()` on the
internal logging queue; `except Exception` (lines 322-324) puts the exception
itself; both handlers and the normal path then fall through to the common
epilogue. -/
def lms_downloader_process (deliver : String → Nat → Bool) (trig : SupTrigger) : SupRun :=
  match supervisor_try_body deliver trig with
  | Except.ok res => supervisor_epilogue (SupOutcome.completedOk res) none
  | Except.error (PyExc.ki reason) =>
      supervisor_epilogue (SupOutcome.interruptedBy reason) (some LogItem.interrupt)
  | Except.error (PyExc.exc reason) =>
      supervisor_epilogue (SupOutcome.failedWith reason) (some (LogItem.errorMarker reason))

/-- Python slice `s[-k:]` for a non-negative `k` (used at
LMSDownloaderHandler.py line 189 with `k = config_["max_log_symbols"]`).
For `k = 0` Python evaluates `s[-0:]`, i.e. `s[0:]`, which is the whole
string; for `k > 0` it is the last `min k (len s)` characters. -/
def pyTailSlice (s : String) (k : Nat) : String :=
  if k = 0 then s else String.mk (s.data.drop (s.data.length - k))

/-- One append to the relay's `log_rows` buffer (LMSDownloaderHandler.py lines
183-189): concatenate the formatted entry, then, if the buffer length exceeds
`max_log_symbols`, keep `log_rows[-max_log_symbols:]`. -/
def appendLog (cap : Nat) (log_rows entry : String) : String :=
  let r := log_rows ++ entry
  if cap < r.length then pyTailSlice r cap else r

/-- Mutable state of the `logs_to_message_loop` thread (LMSDownloaderHandler.py
lines 119-122): the accumulated buffer, the current outbound message id
(`None` before the first flush), and the running line number. -/
structure RelayState where
  log_rows : String
  message_id : Option Nat
  line_n : Nat
deriving DecidableEq, Repr

/-- Per-flush outcomes of the telegram transport as seen through `send_safe`
(which swallows errors, see `send_safe`): at relay iteration `k`,
`sendResult k` is the id of a newly created message (`none` when the send
call failed), and `editResult k` tells whether an edit call succeeded.  A
successful edit returns the edited message, whose `message_id` equals the id
passed in. -/
structure FlushOracle where
  sendResult : Nat → Option Nat
  editResult : Nat → Bool

/-- One `_send_message` call of the relay (LMSDownloaderHandler.py lines
124-147, via `BotHandler.send_safe` with `edit_message_id = message_id_`):
returns the value `send_safe` hands back (the new state of `message_id` when
assigned at line 194) together with whether a fresh outbound message was
created.  `send_safe` checks `if not edit_message_id`, so a current id of
`None` or `0` sends a new message; otherwise it edits the existing one, which
on success keeps the same id and on failure yields `None`. -/
def send_message_step (o : FlushOracle) (k : Nat) (mid : Option Nat) :
    Option Nat × Bool :=
  match mid with
  | none =>
    match o.sendResult k with
    | some newId => (some newId, true)
    | none => (none, false)
  | some m =>
    if m = 0 then
      match o.sendResult k with
      | some newId => (some newId, true)
      | none => (none, false)
    else if o.editResult k then (some m, false) else (none, false)

/-- Events observable from one relay iteration: the
`time.sleep(config_["send_messages_interval"])` settle delay taken before a
terminal flush (line 158), an ordinary progress flush with the
`"log_message"` template (line 194, recording whether it created a new
outbound message), and the single terminal flush with its template (lines
162-168). -/
inductive RelayEvent where
  | settleSleep
  | flushProgress (created : Bool)
  | flushTerminal (tpl : String) (created : Bool)
deriving DecidableEq, Repr

/-- The periodic-flush check at LMSDownloaderHandler.py lines 191-194,
executed at the end of a non-`continue` iteration: when the send interval has
elapsed (abstracted by the `due` flag), `message_id` is reassigned to
whatever `_send_message` returns and a progress-flush event is emitted;
otherwise nothing happens. -/
def relay_flush_check (o : FlushOracle) (due : Bool) (k : Nat) (s : RelayState) :
    RelayState × List RelayEvent :=
  if due then
    (⟨s.log_rows, (send_message_step o k s.message_id).1, s.line_n⟩,
     [RelayEvent.flushProgress (send_message_step o k s.message_id).2])
  else (s, [])

/-- The `logs_to_message_loop` thread body (LMSDownloaderHandler.py lines
149-197) run over a finite schedule of per-iteration dequeue results: entry
`none` models `queue.Empty`, entry `some item` a dequeued object.  Dequeuing
`None` / an exact `KeyboardInterrupt` / any other non-`LogRecord` first
sleeps one send interval and then performs the terminal flush with the
`"log_message_done"` / `"log_message_done_interrupted"` /
`"log_message_done_error"` template (whose result is discarded) and breaks.
A `LogRecord` whose message starts with the telegram-ignore prefix is skipped
with `continue` (bypassing the flush check); otherwise it is appended to the
buffer through `appendLog` with the formatted line (`fmt` models
`messages_["log_message_format"].format`) and the line counter advances.
`flushDue k` abstracts the `time.time() - last_time_sent >= interval` test of
iteration `k`.  Returns the final state, the event trace, and the template of
the terminal flush (`none` when the schedule ran out first). -/
def logs_to_message_loop (o : FlushOracle) (fmt : Nat → String → String)
    (cap : Nat) (ignorePfx : String) (flushDue : Nat → Bool) :
    List (Option LogItem) → Nat → RelayState →
      RelayState × List RelayEvent × Option String
  | [], _, s => (s, [], none)
  | some LogItem.endOfStream :: _, k, s =>
    (s, [RelayEvent.settleSleep,
         RelayEvent.flushTerminal "log_message_done"
           (send_message_step o k s.message_id).2],
     some "log_message_done")
  | some LogItem.interrupt :: _, k, s =>
    (s, [RelayEvent.settleSleep,
         RelayEvent.flushTerminal "log_message_done_interrupted"
           (send_message_step o k s.message_id).2],
     some "log_message_done_interrupted")
  | some (LogItem.errorMarker _) :: _, k, s =>
    (s, [RelayEvent.settleSleep,
         RelayEvent.flushTerminal "log_message_done_error"
           (send_message_step o k s.message_id).2],
     some "log_message_done_error")
  | some (LogItem.record msg) :: rest, k, s =>
    if msg.startsWith ignorePfx then
      logs_to_message_loop o fmt cap ignorePfx flushDue rest (k+1) s
    else
      let s1 : RelayState :=
        ⟨appendLog cap s.log_rows (fmt s.line_n msg), s.message_id, s.line_n + 1⟩
      let p := relay_flush_check o (flushDue k) k s1
      let r := logs_to_message_loop o fmt cap ignorePfx flushDue rest (k+1) p.1
      (r.1, p.2 ++ r.2.1, r.2.2)
  | none :: rest, k, s =>
    let p := relay_flush_check o (flushDue k) k s
    let r := logs_to_message_loop o fmt cap ignorePfx flushDue rest (k+1) p.1
    (r.1, p.2 ++ r.2.1, r.2.2)

/-- Template of the terminal flush that the relay will perform on a given
dequeue schedule: determined by the first loop-terminating item in it. -/
def firstTerminalTpl : List (Option LogItem) → Option String
  | [] => none
  | some LogItem.endOfStream :: _ => some "log_message_done"
  | some LogItem.interrupt :: _ => some "log_message_done_interrupted"
  | some (LogItem.errorMarker _) :: _ => some "log_message_done_error"
  | some (LogItem.record _) :: rest => firstTerminalTpl rest
  | none :: rest => firstTerminalTpl rest

/-- Recognizes terminal-flush events in a relay trace. -/
def isTerminalFlush : RelayEvent → Bool
  | RelayEvent.flushTerminal _ _ => true
  | _ => false

/-- Recognizes events that created a fresh outbound message. -/
def createdFlag : RelayEvent → Bool
  | RelayEvent.flushProgress c => c
  | RelayEvent.flushTerminal _ c => c
  | RelayEvent.settleSleep => false

/-- Number of terminal flushes in a relay trace. -/
def terminalCount (tr : List RelayEvent) : Nat := (tr.filter isTerminalFlush).length

/-- Number of outbound messages created in a relay trace. -/
def creations (tr : List RelayEvent) : Nat := (tr.filter createdFlag).length

/-- One registered entry of `self.lms_downloader_processes`
(LMSDownloaderHandler.py line 348: `(time started, process object, interrupt
event)`): its start time, whether `process.is_alive()` currently holds,
whether `interrupt_event.is_set()`, and whether the watchdog has issued
`process.kill()` on it. -/
structure WJob where
  time_started : Rat
  alive : Bool
  interrupt_set : Bool
  kill_issued : Bool
deriving DecidableEq, Repr

/-- Per-job timeout handling of one watchdog tick (LMSDownloaderHandler.py
lines 404-418), for a job whose process is alive: when
`now - time_started >= process_timeout`, the interrupt event is set when not
already set; nested inside that branch, when
`now - time_started >= process_timeout + EXIT_WAIT_TIME`, `process.kill()` is
issued (the kill call itself is wrapped in try/except, so only the attempt is
recorded).  The code calls `time.time()` separately for each comparison; the
model uses one `now` per visit. -/
def jobTickUpdate (process_timeout now : Rat) (j : WJob) : WJob :=
  if process_timeout ≤ now - j.time_started then
    let j1 := if j.interrupt_set then j else { j with interrupt_set := true }
    if process_timeout + EXIT_WAIT_TIME ≤ now - j.time_started then
      { j1 with kill_issued := true }
    else j1
  else j

/-- Python's `list.remove(x)` (used on the registry at LMSDownloaderHandler.py
line 402): removes the first element equal to `x`, and raises `ValueError`
when no element matches. -/
def list_remove {α : Type} [DecidableEq α] : List α → α → Except String (List α)
  | [], _ => Except.error "ValueError: list.remove(x): x not in list"
  | x :: xs, a =>
    if x = a then Except.ok xs
    else
      match list_remove xs a with
      | Except.ok ys => Except.ok (x :: ys)
      | Except.error e => Except.error e

/-- The `for time_started, process, interrupt_event in
self.lms_downloader_processes` loop of one watchdog tick
(LMSDownloaderHandler.py lines 398-418), with CPython's index-based list
iterator made explicit: the iterator fetches index `i` and advances; a dead
process is removed from the list via `list.remove` (line 402), which shifts
later elements one slot left while the iterator still advances, so the
element after a removed one is skipped for the rest of this tick; an alive
process is updated by the timeout logic in place.  Were `list.remove` ever to
raise, nothing in the loop catches it and the watchdog thread would die with
the registry unchanged from that point (the error arm).  The fuel argument
only serves termination and is chosen large enough in
`processes_watchdog_tick`. -/
def watchdog_tick_loop (process_timeout now : Rat) :
    Nat → Nat → List WJob → List WJob
  | 0, _, jobs => jobs
  | fuel+1, i, jobs =>
    if h : i < jobs.length then
      let j := jobs.get ⟨i, h⟩
      if j.alive then
        watchdog_tick_loop process_timeout now fuel (i+1)
          (jobs.set i (jobTickUpdate process_timeout now j))
      else
        match list_remove jobs j with
        | Except.ok ys => watchdog_tick_loop process_timeout now fuel (i+1) ys
        | Except.error _ => jobs
    else jobs

/-- One full tick of `_processes_watchdog_loop` over the registry
(LMSDownloaderHandler.py lines 397-418). -/
def processes_watchdog_tick (process_timeout now : Rat) (jobs : List WJob) :
    List WJob :=
  watchdog_tick_loop process_timeout now (jobs.length + 1) 0 jobs

/-- Sequential prefix-map used to describe `watchdog_tick_loop` on a registry
with no dead entries: applies `f` to the first `fuel` elements. -/
def mapFuel (f : WJob → WJob) : Nat → List WJob → List WJob
  | 0, l => l
  | _+1, [] => []
  | fuel+1, x :: xs => f x :: mapFuel f fuel xs

theorem send_file_loop_attempts_le (s : Nat → Bool) :
    ∀ fuel rc w, (send_file_loop s fuel rc w).attempts ≤ rc + fuel := by
  intro fuel
  induction fuel with
  | zero => intro rc w; simp [send_file_loop]
  | succ n ih =>
    intro rc w
    simp only [send_file_loop]
    split
    · simp
    · split
      · simp
      · exact le_trans (ih (rc+1) (w+1)) (by omega)

theorem send_file_loop_attempts_pos (s : Nat → Bool) :
    ∀ fuel rc w, 0 < fuel → rc + 1 ≤ (send_file_loop s fuel rc w).attempts := by
  intro fuel
  induction fuel with
  | zero => intro rc w h; omega
  | succ n ih =>
    intro rc w _
    simp only [send_file_loop]
    split
    · simp
    · split
      · simp
      · cases n with
        | zero => simp [send_file_loop]
        | succ m => exact le_trans (by omega) (ih (rc+1) (w+1) (by omega))

theorem send_file_loop_waits (s : Nat → Bool) :
    ∀ fuel rc w,
      (send_file_loop s fuel rc w).waits
          + (if (send_file_loop s fuel rc w).delivered then 1 else 0) + rc
        = w + (send_file_loop s fuel rc w).attempts := by
  intro fuel
  induction fuel with
  | zero => intro rc w; simp [send_file_loop]
  | succ n ih =>
    intro rc w
    simp only [send_file_loop]
    split
    · simp; omega
    · split
      · simp; omega
      · have h := ih (rc+1) (w+1)
        omega

theorem send_file_loop_exhaust (s : Nat → Bool) :
    ∀ fuel rc w, rc + fuel = MAX_FILES_RETRIES →
      (send_file_loop s fuel rc w).delivered = false →
      (send_file_loop s fuel rc w).attempts = MAX_FILES_RETRIES := by
  intro fuel
  induction fuel with
  | zero => intro rc w hrc _; simpa [send_file_loop] using hrc
  | succ n ih =>
    intro rc w hrc
    simp only [send_file_loop]
    split
    · simp
    · rename_i hmax
      split
      · rename_i hge
        intro _
        simp only [MAX_FILES_RETRIES] at *
        omega
      · exact ih (rc+1) (w+1) (by omega)

theorem send_all_files_eq_map (d : String → Nat → Bool) :
    ∀ files, send_all_files d files = files.map fun f => send_file (d f) := by
  intro files
  induction files with
  | nil => rfl
  | cons f rest ih => simp [send_all_files, ih]

/-- C5: for every artifact path in the worker's result list, taken in list
order, delivery is attempted at least once and at most `MAX_FILES_RETRIES`
times, each failed attempt is followed by exactly one
`RESEND_FILE_AFTER_TIME` backoff wait (so the wait count equals the failed
attempt count), an undelivered artifact has exhausted the full attempt
bound, and the batch loop processes every artifact independently in list
order instead of aborting on a failure. -/
theorem C5_bounded_artifact_retry (succeeds : Nat → Bool) :
    1 ≤ (send_file succeeds).attempts ∧
    (send_file succeeds).attempts ≤ MAX_FILES_RETRIES ∧
    (send_file succeeds).waits
        + (if (send_file succeeds).delivered then 1 else 0)
      = (send_file succeeds).attempts ∧
    ((send_file succeeds).delivered = false →
      (send_file succeeds).attempts = MAX_FILES_RETRIES) ∧
    ∀ (deliver : String → Nat → Bool) (files : List String),
      send_all_files deliver files = files.map fun f => send_file (deliver f) := by
  refine ⟨?_, ?_, ?_, ?_, ?_⟩
  · simpa [send_file] using
      send_file_loop_attempts_pos succeeds MAX_FILES_RETRIES 0 0 (by decide)
  · simpa [send_file] using send_file_loop_attempts_le succeeds MAX_FILES_RETRIES 0 0
  · have h := send_file_loop_waits succeeds MAX_FILES_RETRIES 0 0
    simp only [send_file]
    omega
  · exact send_file_loop_exhaust succeeds MAX_FILES_RETRIES 0 0 (by decide)
  · exact send_all_files_eq_map

/-- C5 witness: a transport that always fails leaves the artifact
undelivered after exactly `MAX_FILES_RETRIES` attempts. -/
theorem C5_witness :
    (send_file (fun _ => false)).delivered = false ∧
    (send_file (fun _ => false)).attempts = MAX_FILES_RETRIES :=
  ⟨by decide, (C5_bounded_artifact_retry (fun _ => false)).2.2.2.1 (by decide)⟩

/-- C7: `send_safe` never raises: it is a total function that returns the
message id handed back by the underlying send/edit call on success and `none`
exactly when that call fails, so a transport failure cannot crash the calling
relay loop. -/
theorem C7_send_safe_never_raises (t : Transport) (chat_id : Nat) (text : String)
    (hasContext parse_markdown : Bool) (edit_message_id : Option Nat) :
    (∀ m, send_safe_try_body t chat_id text hasContext parse_markdown edit_message_id
          = Except.ok m →
        send_safe t chat_id text hasContext parse_markdown edit_message_id = some m) ∧
    (∀ e, send_safe_try_body t chat_id text hasContext parse_markdown edit_message_id
          = Except.error e →
        send_safe t chat_id text hasContext parse_markdown edit_message_id = none) ∧
    send_safe t chat_id text hasContext parse_markdown edit_message_id
      = (send_safe_try_body t chat_id text hasContext parse_markdown edit_message_id).toOption := by
  cases h : send_safe_try_body t chat_id text hasContext parse_markdown edit_message_id with
  | ok m =>
    refine ⟨?_, ?_, ?_⟩
    · intro m2 hm2
      cases hm2
      simp [send_safe, h]
    · intro e he
      exact Except.noConfusion he
    · simp [send_safe, h, Except.toOption]
  | error e =>
    refine ⟨?_, ?_, ?_⟩
    · intro m2 hm2
      exact Except.noConfusion hm2
    · intro e2 _
      simp [send_safe, h]
    · simp [send_safe, h, Except.toOption]

/-- Transport whose primitives all succeed with fixed fresh ids. -/
def transport_ok : Transport :=
  ⟨fun _ _ => Except.ok 7, fun _ _ _ => Except.ok 8,
   fun _ _ => Except.ok 9, fun _ _ _ => Except.ok 10⟩

/-- Transport whose primitives all raise. -/
def transport_err : Transport :=
  ⟨fun _ _ => Except.error "boom", fun _ _ _ => Except.error "boom",
   fun _ _ => Except.error "boom", fun _ _ _ => Except.error "boom"⟩

/-- C7 witness: a succeeding send yields its message id, a raising send
yields `none`. -/
theorem C7_witness :
    send_safe transport_ok 1 "hi" true false none = some 7 ∧
    send_safe transport_err 1 "hi" true false none = none :=
  ⟨(C7_send_safe_never_raises transport_ok 1 "hi" true false none).1 7 rfl,
   (C7_send_safe_never_raises transport_err 1 "hi" true false none).2.1 "boom" rfl⟩

/-- C8 counterexample: the registry's removal operation is Python's
`list.remove`, which on a registry not containing the requested entry raises
`ValueError` instead of being a no-op; removing `2` from the one-element
registry `[1]` errors rather than returning the registry unchanged. -/
theorem C8_counterexample :
    list_remove [(1 : Nat)] 2
        = Except.error "ValueError: list.remove(x): x not in list" ∧
    list_remove [(1 : Nat)] 2 ≠ Except.ok [1] := by
  refine ⟨rfl, ?_⟩
  intro h
  have he : list_remove [(1 : Nat)] 2
      = Except.error "ValueError: list.remove(x): x not in list" := rfl
  rw [he] at h
  exact Except.noConfusion h

/-- C8 amended: removing a present entry removes exactly its first
occurrence; removing an absent entry raises `ValueError` (it is not an
idempotent no-op).  In the watchdog the entry is always present at the moment
of removal, so only the first branch is reachable there. -/
theorem C8_remove_first_occurrence {α : Type} [DecidableEq α] (xs : List α) (a : α) :
    (a ∈ xs → list_remove xs a = Except.ok (xs.erase a)) ∧
    (a ∉ xs →
      list_remove xs a = Except.error "ValueError: list.remove(x): x not in list") := by
  induction xs with
  | nil => exact ⟨fun h => absurd h (List.not_mem_nil a), fun _ => rfl⟩
  | cons x rest ih =>
    constructor
    · intro hmem
      by_cases hx : x = a
      · subst hx
        simp [list_remove, List.erase_cons]
      · have hmem2 : a ∈ rest := by
          rcases List.mem_cons.mp hmem with h | h
          · exact absurd h.symm hx
          · exact h
        simp [list_remove, hx, ih.1 hmem2, List.erase_cons,
          show ¬ (x == a) = true by simpa using hx]
    · intro hnmem
      have hx : ¬ x = a := fun h => hnmem (h ▸ List.mem_cons_self x rest)
      have ha : a ∉ rest := fun h => hnmem (List.mem_cons_of_mem x h)
      simp [list_remove, hx, ih.2 ha]

/-- C8 witness: removing the present entry `2` from `[1, 2, 3]` removes its
first occurrence. -/
theorem C8_witness :
    ((2 : Nat) ∈ [1, 2, 3]) ∧
    list_remove [(1 : Nat), 2, 3] 2 = Except.ok ([1, 2, 3].erase 2) :=
  ⟨by decide, (C8_remove_first_occurrence [1, 2, 3] 2).1 (by decide)⟩

/-- C9: on every terminal path of the supervisor — normal completion with
artifacts, worker error, wrong or absent return data, and
interrupt/cancellation — the common epilogue runs and the job-scoped
temporary directory is cleaned up before the supervisor returns. -/
theorem C9_unconditional_temp_cleanup (deliver : String → Nat → Bool)
    (trig : SupTrigger) :
    (lms_downloader_process deliver trig).tempCleaned = true := by
  cases h : supervisor_try_body deliver trig with
  | ok res => simp [lms_downloader_process, h, supervisor_epilogue]
  | error e => cases e <;> simp [lms_downloader_process, h, supervisor_epilogue]

/-- C4: the supervisor interprets every value received on the worker's return
channel into exactly one of the stated outcomes: a `list` runs artifact
delivery and completes normally with the end-of-stream marker; an exact
`KeyboardInterrupt` takes the interrupted path; an exact `Exception` takes
the failure path with its own message as the recorded reason; and `None` is
treated as a failure with the synthetic (non-empty) no-result reason rather
than as a success (the recorded reason is the synthetic `noResultReason`). -/
theorem C4_return_channel_outcomes (deliver : String → Nat → Bool) :
    (∀ files,
      lms_downloader_process deliver (SupTrigger.childReturned (RetData.fileList files))
        = { outcome := SupOutcome.completedOk (send_all_files deliver files)
            terminalMarker := LogItem.endOfStream
            tempCleaned := true }) ∧
    lms_downloader_process deliver (SupTrigger.childReturned RetData.keyboardInterrupt)
        = { outcome := SupOutcome.interruptedBy "Keyboard interrupt from child process"
            terminalMarker := LogItem.interrupt
            tempCleaned := true } ∧
    (∀ msg,
      lms_downloader_process deliver (SupTrigger.childReturned (RetData.exactException msg))
        = { outcome := SupOutcome.failedWith msg
            terminalMarker := LogItem.errorMarker msg
            tempCleaned := true }) ∧
    lms_downloader_process deliver (SupTrigger.childReturned RetData.pyNone)
        = { outcome := SupOutcome.failedWith noResultReason
            terminalMarker := LogItem.errorMarker noResultReason
            tempCleaned := true } :=
  ⟨fun _ => rfl, rfl, fun _ => rfl, rfl⟩

/-- C10: a worker error is recognized as such only when the returned value's
type is exactly `Exception`; a value of a strict `Exception` subclass is
instead routed through the wrong-type branch, so the job still ends on the
error path but with the synthetic wrong-type reason, which does not depend on
(and therefore does not record) the worker's original error message. -/
theorem C10_exact_type_error_matching (deliver : String → Nat → Bool)
    (tyName msg : String) :
    (lms_downloader_process deliver
        (SupTrigger.childReturned (RetData.exceptionSubclass tyName msg))).outcome
      = SupOutcome.failedWith (wrongTypeReason tyName) ∧
    (∀ msg2,
      lms_downloader_process deliver
          (SupTrigger.childReturned (RetData.exceptionSubclass tyName msg))
        = lms_downloader_process deliver
            (SupTrigger.childReturned (RetData.exceptionSubclass tyName msg2))) ∧
    (∀ m,
      (lms_downloader_process deliver
          (SupTrigger.childReturned (RetData.exactException m))).outcome
        = SupOutcome.failedWith m) :=
  ⟨rfl, fun _ => rfl, fun _ => rfl⟩

theorem string_data_append (a b : String) : (a ++ b).data = a.data ++ b.data := by
  cases a
  cases b
  rfl

theorem string_length_data (s : String) : s.length = s.data.length := rfl

theorem appendLog_length_le (cap : Nat) (hcap : 1 ≤ cap) (buf e : String) :
    (appendLog cap buf e).length ≤ cap := by
  simp only [appendLog]
  split
  · rename_i hlt
    simp only [pyTailSlice, if_neg (by omega : ¬ cap = 0)]
    simp only [string_length_data] at hlt ⊢
    simp only [List.length_drop]
    omega
  · rename_i hge
    omega

theorem pyTailSlice_length (r : String) (cap : Nat) (h1 : 1 ≤ cap)
    (h2 : cap ≤ r.length) : (pyTailSlice r cap).length = cap := by
  simp only [pyTailSlice, if_neg (by omega : ¬ cap = 0)]
  simp only [string_length_data] at h2 ⊢
  simp only [List.length_drop]
  omega

theorem appendLog_suffix (cap : Nat) (buf e : String) :
    (appendLog cap buf e).data <:+ (buf ++ e).data := by
  simp only [appendLog]
  split
  · simp only [pyTailSlice]
    split
    · exact List.suffix_refl _
    · exact List.drop_suffix _ _
  · exact List.suffix_refl _

theorem foldl_appendLog_suffix (cap : Nat) :
    ∀ (entries : List String) (buf full : String),
      buf.data <:+ full.data →
      (entries.foldl (fun b e => appendLog cap b e) buf).data
        <:+ (entries.foldl (fun b e => b ++ e) full).data := by
  intro entries
  induction entries with
  | nil => intro buf full h; simpa using h
  | cons e rest ih =>
    intro buf full h
    simp only [List.foldl_cons]
    apply ih
    have h1 := appendLog_suffix cap buf e
    have h2 : (buf ++ e).data <:+ (full ++ e).data := by
      obtain ⟨p, hp⟩ := h
      refine ⟨p, ?_⟩
      rw [string_data_append, string_data_append, ← List.append_assoc, hp]
    exact h1.trans h2

theorem relay_flush_check_log_rows (o : FlushOracle) (due : Bool) (k : Nat)
    (s : RelayState) : (relay_flush_check o due k s).1.log_rows = s.log_rows := by
  simp only [relay_flush_check]
  split <;> rfl

theorem relay_log_rows_le (o : FlushOracle) (fmt : Nat → String → String)
    (cap : Nat) (hcap : 1 ≤ cap) (pfx : String) (due : Nat → Bool) :
    ∀ (input : List (Option LogItem)) (k : Nat) (s : RelayState),
      s.log_rows.length ≤ cap →
      (logs_to_message_loop o fmt cap pfx due input k s).1.log_rows.length ≤ cap := by
  intro input
  induction input with
  | nil => intro k s h; simpa [logs_to_message_loop] using h
  | cons itm rest ih =>
    intro k s h
    match itm with
    | some LogItem.endOfStream => simpa [logs_to_message_loop] using h
    | some LogItem.interrupt => simpa [logs_to_message_loop] using h
    | some (LogItem.errorMarker m) => simpa [logs_to_message_loop] using h
    | some (LogItem.record msg) =>
      simp only [logs_to_message_loop]
      split
      · exact ih (k+1) s h
      · refine ih (k+1) _ ?_
        rw [relay_flush_check_log_rows]
        exact appendLog_length_le cap hcap _ _
    | none =>
      simp only [logs_to_message_loop]
      refine ih (k+1) _ ?_
      rw [relay_flush_check_log_rows]
      exact h

/-- C2 counterexample: with a configured cap of `0`, appending one character
to the empty buffer leaves the buffer holding that character — Python's
`log_rows[-0:]` is the whole string, so the code does not truncate to the
last `0` characters and the buffer exceeds the cap. -/
theorem C2_counterexample :
    appendLog 0 "" "a" = "a" ∧ ¬ (appendLog 0 "" "a").length ≤ 0 := by
  refine ⟨rfl, ?_⟩
  intro h
  have : (appendLog 0 "" "a").length = 1 := rfl
  omega

/-- C2 amended: for every positive cap, after each append the buffer holds at
most `cap` characters; whenever the concatenation exceeds the cap it is
truncated to exactly its last `cap` characters (`pyTailSlice`, i.e. Python's
`log_rows[-cap:]`); the retained text is always a suffix of the text just
appended to, and over any sequence of appends a suffix of the full
accumulated text; and every relay-loop iteration preserves the cap bound on
the buffer. -/
theorem C2_log_buffer_cap (cap : Nat) (hcap : 1 ≤ cap) :
    (∀ buf e, (appendLog cap buf e).length ≤ cap) ∧
    (∀ buf e, cap < (buf ++ e).length →
      appendLog cap buf e = pyTailSlice (buf ++ e) cap ∧
      (appendLog cap buf e).length = cap) ∧
    (∀ buf e, (appendLog cap buf e).data <:+ (buf ++ e).data) ∧
    (∀ entries : List String,
      (entries.foldl (fun b e => appendLog cap b e) "").data
        <:+ (entries.foldl (fun b e => b ++ e) "").data) ∧
    (∀ (o : FlushOracle) (fmt : Nat → String → String) (pfx : String)
        (due : Nat → Bool) (input : List (Option LogItem)) (k : Nat)
        (s : RelayState),
      s.log_rows.length ≤ cap →
      (logs_to_message_loop o fmt cap pfx due input k s).1.log_rows.length ≤ cap) := by
  refine ⟨fun buf e => appendLog_length_le cap hcap buf e, ?_, ?_, ?_, ?_⟩
  · intro buf e hlt
    constructor
    · simp only [appendLog, if_pos hlt]
    · have := appendLog_length_le cap hcap buf e
      simp only [appendLog, if_pos hlt] at this ⊢
      exact pyTailSlice_length _ _ hcap (by omega)
  · exact appendLog_suffix cap
  · intro entries
    exact foldl_appendLog_suffix cap entries "" "" (List.suffix_refl _)
  · intro o fmt pfx due input k s hs
    exact relay_log_rows_le o fmt cap hcap pfx due input k s hs

/-- C2 witness: with cap `1`, appending two characters to a one-character
buffer keeps the buffer within the cap. -/
theorem C2_witness : (1 ≤ 1) ∧ (appendLog 1 "x" "yz").length ≤ 1 :=
  ⟨le_refl 1, (C2_log_buffer_cap 1 (le_refl 1)).1 "x" "yz"⟩

theorem relay_terminal_eq (o : FlushOracle) (fmt : Nat → String → String)
    (cap : Nat) (pfx : String) (due : Nat → Bool) :
    ∀ (input : List (Option LogItem)) (k : Nat) (s : RelayState),
      (logs_to_message_loop o fmt cap pfx due input k s).2.2
        = firstTerminalTpl input := by
  intro input
  induction input with
  | nil => intro k s; rfl
  | cons itm rest ih =>
    intro k s
    match itm with
    | some LogItem.endOfStream => rfl
    | some LogItem.interrupt => rfl
    | some (LogItem.errorMarker m) => rfl
    | some (LogItem.record msg) =>
      simp only [logs_to_message_loop, firstTerminalTpl]
      split
      · exact ih (k+1) s
      · exact ih (k+1) _
    | none =>
      simp only [logs_to_message_loop, firstTerminalTpl]
      exact ih (k+1) _

theorem firstTerminalTpl_ne_progress :
    ∀ (input : List (Option LogItem)) (tpl : String),
      firstTerminalTpl input = some tpl → tpl ≠ "log_message" := by
  intro input
  induction input with
  | nil => intro tpl h; exact Option.noConfusion h
  | cons itm rest ih =>
    intro tpl h
    match itm with
    | some LogItem.endOfStream =>
      simp only [firstTerminalTpl, Option.some.injEq] at h
      subst h
      decide
    | some LogItem.interrupt =>
      simp only [firstTerminalTpl, Option.some.injEq] at h
      subst h
      decide
    | some (LogItem.errorMarker m) =>
      simp only [firstTerminalTpl, Option.some.injEq] at h
      subst h
      decide
    | some (LogItem.record msg) => exact ih tpl h
    | none => exact ih tpl h

theorem terminalCount_flush_check_append (o : FlushOracle) (due : Bool)
    (k : Nat) (s : RelayState) (tr : List RelayEvent) :
    terminalCount ((relay_flush_check o due k s).2 ++ tr) = terminalCount tr := by
  simp only [relay_flush_check]
  split
  · simp [terminalCount, List.filter_cons, isTerminalFlush]
  · simp [terminalCount]

theorem relay_terminal_shape (o : FlushOracle) (fmt : Nat → String → String)
    (cap : Nat) (pfx : String) (due : Nat → Bool) :
    ∀ (input : List (Option LogItem)) (k : Nat) (s : RelayState),
      (∀ tpl, (logs_to_message_loop o fmt cap pfx due input k s).2.2 = some tpl →
        terminalCount (logs_to_message_loop o fmt cap pfx due input k s).2.1 = 1 ∧
        ∃ p c, (logs_to_message_loop o fmt cap pfx due input k s).2.1
            = p ++ [RelayEvent.settleSleep, RelayEvent.flushTerminal tpl c]) ∧
      ((logs_to_message_loop o fmt cap pfx due input k s).2.2 = none →
        terminalCount (logs_to_message_loop o fmt cap pfx due input k s).2.1 = 0) := by
  intro input
  induction input with
  | nil =>
    intro k s
    exact ⟨fun tpl h => Option.noConfusion h, fun _ => rfl⟩
  | cons itm rest ih =>
    intro k s
    match itm with
    | some LogItem.endOfStream =>
      refine ⟨fun tpl h => ?_, fun h => Option.noConfusion h⟩
      simp only [logs_to_message_loop, Option.some.injEq] at h ⊢
      subst h
      exact ⟨by simp [terminalCount, List.filter_cons, isTerminalFlush],
        [], (send_message_step o k s.message_id).2, rfl⟩
    | some LogItem.interrupt =>
      refine ⟨fun tpl h => ?_, fun h => Option.noConfusion h⟩
      simp only [logs_to_message_loop, Option.some.injEq] at h ⊢
      subst h
      exact ⟨by simp [terminalCount, List.filter_cons, isTerminalFlush],
        [], (send_message_step o k s.message_id).2, rfl⟩
    | some (LogItem.errorMarker m) =>
      refine ⟨fun tpl h => ?_, fun h => Option.noConfusion h⟩
      simp only [logs_to_message_loop, Option.some.injEq] at h ⊢
      subst h
      exact ⟨by simp [terminalCount, List.filter_cons, isTerminalFlush],
        [], (send_message_step o k s.message_id).2, rfl⟩
    | some (LogItem.record msg) =>
      simp only [logs_to_message_loop]
      split
      · exact ih (k+1) s
      · constructor
        · intro tpl h
          obtain ⟨hc, p, c, hp⟩ := (ih (k+1) _).1 tpl h
          constructor
          · rw [terminalCount_flush_check_append, hc]
          · exact ⟨_ ++ p, c, by rw [hp, ← List.append_assoc]⟩
        · intro h
          rw [terminalCount_flush_check_append]
          exact (ih (k+1) _).2 h
    | none =>
      simp only [logs_to_message_loop]
      constructor
      · intro tpl h
        obtain ⟨hc, p, c, hp⟩ := (ih (k+1) _).1 tpl h
        constructor
        · rw [terminalCount_flush_check_append, hc]
        · exact ⟨_ ++ p, c, by rw [hp, ← List.append_assoc]⟩
      · intro h
        rw [terminalCount_flush_check_append]
        exact (ih (k+1) _).2 h

/-- C6: for each termination marker dequeued from the internal log stream the
relay performs exactly one terminal flush — choosing the `"log_message_done"`
/ `"log_message_done_interrupted"` / `"log_message_done_error"` template for
the `None` / `KeyboardInterrupt` / other-non-`LogRecord` marker respectively
— immediately preceded by a settle sleep of one send interval, after which
the loop exits (the terminal flush is the last event of the trace); runs that
never dequeue a termination marker perform no terminal flush. -/
theorem C6_terminal_flush (o : FlushOracle) (fmt : Nat → String → String)
    (cap : Nat) (pfx : String) (due : Nat → Bool) :
    (∀ rest k s,
      logs_to_message_loop o fmt cap pfx due (some LogItem.endOfStream :: rest) k s
        = (s, [RelayEvent.settleSleep,
               RelayEvent.flushTerminal "log_message_done"
                 (send_message_step o k s.message_id).2],
           some "log_message_done")) ∧
    (∀ rest k s,
      logs_to_message_loop o fmt cap pfx due (some LogItem.interrupt :: rest) k s
        = (s, [RelayEvent.settleSleep,
               RelayEvent.flushTerminal "log_message_done_interrupted"
                 (send_message_step o k s.message_id).2],
           some "log_message_done_interrupted")) ∧
    (∀ m rest k s,
      logs_to_message_loop o fmt cap pfx due (some (LogItem.errorMarker m) :: rest) k s
        = (s, [RelayEvent.settleSleep,
               RelayEvent.flushTerminal "log_message_done_error"
                 (send_message_step o k s.message_id).2],
           some "log_message_done_error")) ∧
    (∀ input k s,
      (logs_to_message_loop o fmt cap pfx due input k s).2.2 = firstTerminalTpl input) ∧
    (∀ input k s tpl,
      (logs_to_message_loop o fmt cap pfx due input k s).2.2 = some tpl →
        terminalCount (logs_to_message_loop o fmt cap pfx due input k s).2.1 = 1 ∧
        ∃ p c, (logs_to_message_loop o fmt cap pfx due input k s).2.1
            = p ++ [RelayEvent.settleSleep, RelayEvent.flushTerminal tpl c]) ∧
    (∀ input k s,
      (logs_to_message_loop o fmt cap pfx due input k s).2.2 = none →
        terminalCount (logs_to_message_loop o fmt cap pfx due input k s).2.1 = 0) :=
  ⟨fun _ _ _ => rfl, fun _ _ _ => rfl, fun _ _ _ _ => rfl,
   relay_terminal_eq o fmt cap pfx due,
   fun input k s => (relay_terminal_shape o fmt cap pfx due input k s).1,
   fun input k s => (relay_terminal_shape o fmt cap pfx due input k s).2⟩

/-- Oracle whose sends always succeed with message id 5 and whose edits
always succeed. -/
def oracle_all_ok : FlushOracle := ⟨fun _ => some 5, fun _ => true⟩

/-- C6 witness: dequeuing the end-of-stream marker produces exactly one
terminal flush, at the end of the trace, after a settle sleep. -/
theorem C6_witness :
    terminalCount (logs_to_message_loop oracle_all_ok (fun _ _ => "") 10 "#"
        (fun _ => true) [some LogItem.endOfStream] 0 ⟨"", none, 1⟩).2.1 = 1 ∧
    ∃ p c, (logs_to_message_loop oracle_all_ok (fun _ _ => "") 10 "#"
        (fun _ => true) [some LogItem.endOfStream] 0 ⟨"", none, 1⟩).2.1
      = p ++ [RelayEvent.settleSleep, RelayEvent.flushTerminal "log_message_done" c] :=
  (C6_terminal_flush oracle_all_ok (fun _ _ => "") 10 "#" (fun _ => true)).2.2.2.2.1
    [some LogItem.endOfStream] 0 ⟨"", none, 1⟩ "log_message_done" rfl

theorem creations_append (a b : List RelayEvent) :
    creations (a ++ b) = creations a + creations b := by
  simp [creations, List.filter_append]

theorem relay_flush_check_established (o : FlushOracle) (due : Bool) (k : Nat)
    (s : RelayState) (m : Nat) (hm : m ≠ 0) (hedit : o.editResult k = true)
    (hs : s.message_id = some m) :
    (relay_flush_check o due k s).1.message_id = some m ∧
    creations (relay_flush_check o due k s).2 = 0 := by
  simp only [relay_flush_check]
  cases due
  · simpa [creations] using hs
  · simp [send_message_step, hs, hm, hedit, creations, List.filter_cons, createdFlag]

theorem relay_creations_established (o : FlushOracle) (fmt : Nat → String → String)
    (cap : Nat) (pfx : String) (due : Nat → Bool)
    (hedit : ∀ k, o.editResult k = true) :
    ∀ (input : List (Option LogItem)) (k : Nat) (s : RelayState) (m : Nat),
      s.message_id = some m → m ≠ 0 →
      creations (logs_to_message_loop o fmt cap pfx due input k s).2.1 = 0 := by
  intro input
  induction input with
  | nil => intro k s m _ _; rfl
  | cons itm rest ih =>
    intro k s m hs hm
    match itm with
    | some LogItem.endOfStream =>
      simp [logs_to_message_loop, creations, List.filter_cons, createdFlag,
        send_message_step, hs, hm, hedit k]
    | some LogItem.interrupt =>
      simp [logs_to_message_loop, creations, List.filter_cons, createdFlag,
        send_message_step, hs, hm, hedit k]
    | some (LogItem.errorMarker m2) =>
      simp [logs_to_message_loop, creations, List.filter_cons, createdFlag,
        send_message_step, hs, hm, hedit k]
    | some (LogItem.record msg) =>
      simp only [logs_to_message_loop]
      split
      · exact ih (k+1) s m hs hm
      · obtain ⟨h1, h2⟩ := relay_flush_check_established o (due k) k
          ⟨appendLog cap s.log_rows (fmt s.line_n msg), s.message_id, s.line_n + 1⟩
          m hm (hedit k) hs
        rw [creations_append, h2, ih (k+1) _ m h1 hm]
    | none =>
      simp only [logs_to_message_loop]
      obtain ⟨h1, h2⟩ := relay_flush_check_established o (due k) k s m hm (hedit k) hs
      rw [creations_append, h2, ih (k+1) _ m h1 hm]

theorem relay_flush_step_from_none (o : FlushOracle) (fmt : Nat → String → String)
    (cap : Nat) (pfx : String) (due : Nat → Bool)
    (hedit : ∀ k, o.editResult k = true)
    (hsend : ∀ k n, o.sendResult k = some n → n ≠ 0)
    (rest : List (Option LogItem)) (k : Nat) (st : RelayState)
    (hst : st.message_id = none)
    (ih : ∀ (k2 : Nat) (s2 : RelayState), s2.message_id = none →
        creations (logs_to_message_loop o fmt cap pfx due rest k2 s2).2.1 ≤ 1) :
    creations (relay_flush_check o (due k) k st).2
      + creations (logs_to_message_loop o fmt cap pfx due rest (k+1)
          (relay_flush_check o (due k) k st).1).2.1 ≤ 1 := by
  cases hdue : due k
  · have hfc : relay_flush_check o false k st = (st, []) := by
      simp [relay_flush_check]
    rw [hfc]
    simpa [creations] using ih (k+1) st hst
  · cases hr : o.sendResult k with
    | none =>
      have hfc : relay_flush_check o true k st
          = (⟨st.log_rows, none, st.line_n⟩, [RelayEvent.flushProgress false]) := by
        simp [relay_flush_check, send_message_step, hst, hr]
      rw [hfc]
      dsimp only
      have h1 := ih (k+1) ⟨st.log_rows, none, st.line_n⟩ rfl
      have h2 : creations [RelayEvent.flushProgress false] = 0 := rfl
      omega
    | some n =>
      have hn : n ≠ 0 := hsend k n hr
      have hfc : relay_flush_check o true k st
          = (⟨st.log_rows, some n, st.line_n⟩, [RelayEvent.flushProgress true]) := by
        simp [relay_flush_check, send_message_step, hst, hr]
      rw [hfc]
      dsimp only
      have h0 := relay_creations_established o fmt cap pfx due hedit rest (k+1)
        ⟨st.log_rows, some n, st.line_n⟩ n rfl hn
      have h2 : creations [RelayEvent.flushProgress true] = 1 := rfl
      omega

theorem relay_creations_from_none (o : FlushOracle) (fmt : Nat → String → String)
    (cap : Nat) (pfx : String) (due : Nat → Bool)
    (hedit : ∀ k, o.editResult k = true)
    (hsend : ∀ k n, o.sendResult k = some n → n ≠ 0) :
    ∀ (input : List (Option LogItem)) (k : Nat) (s : RelayState),
      s.message_id = none →
      creations (logs_to_message_loop o fmt cap pfx due input k s).2.1 ≤ 1 := by
  intro input
  induction input with
  | nil => intro k s _; simp [logs_to_message_loop, creations]
  | cons itm rest ih =>
    intro k s hs
    match itm with
    | some LogItem.endOfStream =>
      cases hr : o.sendResult k <;>
        simp [logs_to_message_loop, creations, List.filter_cons, createdFlag,
          send_message_step, hs, hr]
    | some LogItem.interrupt =>
      cases hr : o.sendResult k <;>
        simp [logs_to_message_loop, creations, List.filter_cons, createdFlag,
          send_message_step, hs, hr]
    | some (LogItem.errorMarker m2) =>
      cases hr : o.sendResult k <;>
        simp [logs_to_message_loop, creations, List.filter_cons, createdFlag,
          send_message_step, hs, hr]
    | some (LogItem.record msg) =>
      simp only [logs_to_message_loop]
      split
      · exact ih (k+1) s hs
      · rw [creations_append]
        exact relay_flush_step_from_none o fmt cap pfx due hedit hsend rest k
          ⟨appendLog cap s.log_rows (fmt s.line_n msg), s.message_id, s.line_n + 1⟩ hs ih
    | none =>
      simp only [logs_to_message_loop]
      rw [creations_append]
      exact relay_flush_step_from_none o fmt cap pfx due hedit hsend rest k s hs ih

/-- Oracle for the C3 counterexample: sends succeed with fresh ids `100 + k`,
and the edit attempted at relay iteration 1 fails (a transient transport
error that `send_safe` swallows into `None`). -/
def oracle_edit_fails_once : FlushOracle :=
  ⟨fun k => some (100 + k), fun k => !(k == 1)⟩

/-- C3 counterexample: the claim that at most one outbound message is ever
created fails on the code.  After the first flush creates message 100, a
failed edit at the next flush makes `send_safe` return `None`, which line 194
assigns back to `message_id`; the following flush therefore creates a second
fresh message: two creations in one relay-loop execution. -/
theorem C3_counterexample :
    creations (logs_to_message_loop oracle_edit_fails_once (fun _ _ => "") 100 "#"
        (fun _ => true) [none, none, none] 0 ⟨"", none, 1⟩).2.1 = 2 ∧
    ¬ creations (logs_to_message_loop oracle_edit_fails_once (fun _ _ => "") 100 "#"
        (fun _ => true) [none, none, none] 0 ⟨"", none, 1⟩).2.1 ≤ 1 := by
  refine ⟨rfl, ?_⟩
  intro h
  have : creations (logs_to_message_loop oracle_edit_fails_once (fun _ _ => "") 100 "#"
      (fun _ => true) [none, none, none] 0 ⟨"", none, 1⟩).2.1 = 2 := rfl
  omega

/-- C3 amended: provided every edit flush succeeds (and created message ids
are nonzero, as telegram ids are), a relay-loop execution starting with no
outbound message creates at most one message; once a message id is
established every later flush edits that same id and creates nothing; and the
terminal flush always uses a template distinct from the ordinary
`"log_message"` progress template.  When a flush's transport call fails, the
stored message id is reset to `None` and the next flush creates a fresh
message, so the one-message invariant only holds up to the first flush
failure. -/
theorem C3_single_outbound_message (o : FlushOracle) (fmt : Nat → String → String)
    (cap : Nat) (pfx : String) (due : Nat → Bool)
    (hedit : ∀ k, o.editResult k = true)
    (hsend : ∀ k n, o.sendResult k = some n → n ≠ 0) :
    (∀ (input : List (Option LogItem)) (k : Nat) (buf : String) (ln : Nat),
      creations (logs_to_message_loop o fmt cap pfx due input k ⟨buf, none, ln⟩).2.1 ≤ 1) ∧
    (∀ (input : List (Option LogItem)) (k : Nat) (buf : String) (ln m : Nat),
      m ≠ 0 →
      creations (logs_to_message_loop o fmt cap pfx due input k ⟨buf, some m, ln⟩).2.1 = 0) ∧
    (∀ (input : List (Option LogItem)) (k : Nat) (s : RelayState) (tpl : String),
      (logs_to_message_loop o fmt cap pfx due input k s).2.2 = some tpl →
      tpl ≠ "log_message") := by
  refine ⟨?_, ?_, ?_⟩
  · intro input k buf ln
    exact relay_creations_from_none o fmt cap pfx due hedit hsend input k ⟨buf, none, ln⟩ rfl
  · intro input k buf ln m hm
    exact relay_creations_established o fmt cap pfx due hedit input k ⟨buf, some m, ln⟩ m rfl hm
  · intro input k s tpl h
    rw [relay_terminal_eq] at h
    exact firstTerminalTpl_ne_progress input tpl h

/-- C3 witness: with an always-succeeding transport, a run over one flushed
iteration creates at most one message. -/
theorem C3_witness :
    creations (logs_to_message_loop oracle_all_ok (fun _ _ => "") 10 "#"
        (fun _ => true) [none, none, some LogItem.endOfStream] 0 ⟨"", none, 1⟩).2.1 ≤ 1 :=
  (C3_single_outbound_message oracle_all_ok (fun _ _ => "") 10 "#" (fun _ => true)
      (fun _ => rfl) (fun _ n h => by cases h; exact Nat.succ_ne_zero 4)).1
    [none, none, some LogItem.endOfStream] 0 "" 1

theorem jobTickUpdate_alive (t now : Rat) (j : WJob) :
    (jobTickUpdate t now j).alive = j.alive := by
  simp only [jobTickUpdate]
  split
  · split <;> split <;> rfl
  · rfl

theorem jobTickUpdate_time_started (t now : Rat) (j : WJob) :
    (jobTickUpdate t now j).time_started = j.time_started := by
  simp only [jobTickUpdate]
  split
  · split <;> split <;> rfl
  · rfl

theorem jobTickUpdate_interrupt (t now : Rat) (j : WJob)
    (h : t ≤ now - j.time_started) :
    (jobTickUpdate t now j).interrupt_set = true := by
  simp only [jobTickUpdate, if_pos h]
  split <;> split <;> simp_all

theorem EXIT_WAIT_TIME_nonneg : (0 : Rat) ≤ EXIT_WAIT_TIME := by
  norm_num [EXIT_WAIT_TIME]

theorem jobTickUpdate_kill (t now : Rat) (j : WJob)
    (h : t + EXIT_WAIT_TIME ≤ now - j.time_started) :
    (jobTickUpdate t now j).kill_issued = true := by
  have h0 : t ≤ now - j.time_started := by
    have := EXIT_WAIT_TIME_nonneg
    linarith
  simp only [jobTickUpdate, if_pos h0, if_pos h]

theorem get_append_cons (pre : List WJob) (x : WJob) (xs : List WJob)
    (h : pre.length < (pre ++ x :: xs).length) :
    (pre ++ x :: xs).get ⟨pre.length, h⟩ = x := by
  induction pre with
  | nil => rfl
  | cons p ps ih => exact ih (by simp)

theorem set_append_cons (pre : List WJob) (x y : WJob) (xs : List WJob) :
    (pre ++ x :: xs).set pre.length y = pre ++ y :: xs := by
  induction pre with
  | nil => rfl
  | cons p ps ih => simp [ih]

theorem list_remove_head (x : WJob) (xs : List WJob) :
    list_remove (x :: xs) x = Except.ok xs := by
  simp [list_remove]

theorem watchdog_tick_all_alive (t now : Rat) :
    ∀ (fuel : Nat) (pre suf : List WJob),
      (∀ j ∈ suf, j.alive = true) →
      watchdog_tick_loop t now fuel pre.length (pre ++ suf)
        = pre ++ mapFuel (jobTickUpdate t now) fuel suf := by
  intro fuel
  induction fuel with
  | zero => intro pre suf _; rfl
  | succ n ih =>
    intro pre suf h
    cases suf with
    | nil =>
      simp only [watchdog_tick_loop, mapFuel]
      rw [dif_neg (by simp)]
    | cons x xs =>
      have hlen : pre.length < (pre ++ x :: xs).length := by simp
      simp only [watchdog_tick_loop]
      rw [dif_pos hlen]
      rw [get_append_cons pre x xs hlen]
      rw [if_pos (h x (List.mem_cons_self x xs))]
      rw [set_append_cons]
      have hlist : pre ++ jobTickUpdate t now x :: xs
          = (pre ++ [jobTickUpdate t now x]) ++ xs := by simp
      have hidx : pre.length + 1 = (pre ++ [jobTickUpdate t now x]).length := by simp
      rw [hlist, hidx,
        ih (pre ++ [jobTickUpdate t now x]) xs (fun j hj => h j (List.mem_cons_of_mem x hj))]
      simp [mapFuel]

theorem mapFuel_eq_map (f : WJob → WJob) :
    ∀ (fuel : Nat) (l : List WJob), l.length ≤ fuel → mapFuel f fuel l = l.map f := by
  intro fuel
  induction fuel with
  | zero =>
    intro l h
    cases l with
    | nil => rfl
    | cons x xs => simp at h
  | succ n ih =>
    intro l h
    cases l with
    | nil => rfl
    | cons x xs => simp [mapFuel, ih xs (by simpa using h)]

theorem watchdog_tick_map (t now : Rat) (jobs : List WJob)
    (halive : ∀ j ∈ jobs, j.alive = true) :
    processes_watchdog_tick t now jobs = jobs.map (jobTickUpdate t now) := by
  have h0 := watchdog_tick_all_alive t now (jobs.length + 1) [] jobs halive
  simp only [List.nil_append, List.length_nil] at h0
  rw [processes_watchdog_tick, h0, mapFuel_eq_map _ _ _ (by omega)]

/-- Registry entry whose process has already finished. -/
def deadEntry : WJob := ⟨0, false, false, false⟩

/-- Registry entry whose process is alive and far past its deadline, with the
interrupt event still unset. -/
def overdueEntry : WJob := ⟨0, true, false, false⟩

/-- C1 counterexample: the per-tick escalation claim fails on the code.  With
`process_timeout = 10` at `now = 100`, the registry `[deadEntry,
overdueEntry]` holds a finished process followed by an alive job 100 seconds
past its deadline with its interrupt event unset; the tick removes the dead
entry, and — because Python's list iterator advances over the just-shifted
list — skips the overdue job entirely: the tick returns it untouched, its
interrupt event still unset and no kill issued, even though
`now - time_started >= process_timeout + EXIT_WAIT_TIME`. -/
theorem C1_counterexample :
    processes_watchdog_tick 10 100 [deadEntry, overdueEntry] = [overdueEntry] ∧
    overdueEntry.alive = true ∧
    (10 : Rat) + EXIT_WAIT_TIME ≤ 100 - overdueEntry.time_started ∧
    overdueEntry.interrupt_set = false ∧
    overdueEntry.kill_issued = false := by
  refine ⟨?_, rfl, ?_, rfl, rfl⟩
  · decide
  · norm_num [overdueEntry, EXIT_WAIT_TIME]

/-- C1 amended: on any watchdog tick during which no registry entry is
removed — in particular whenever every registered process is still alive —
every job past its deadline ends the tick with its interrupt event set, and
every job past `deadline + EXIT_WAIT_TIME` additionally has the kill issued
against its process.  When a dead entry is removed mid-iteration, the entry
immediately after it in the registry is skipped for that tick and is only
handled on a later tick. -/
theorem C1_watchdog_two_phase_escalation (process_timeout now : Rat)
    (jobs : List WJob) (halive : ∀ j ∈ jobs, j.alive = true) :
    ∀ j ∈ processes_watchdog_tick process_timeout now jobs,
      (process_timeout ≤ now - j.time_started → j.interrupt_set = true) ∧
      (process_timeout + EXIT_WAIT_TIME ≤ now - j.time_started →
        j.kill_issued = true) := by
  intro j hj
  rw [watchdog_tick_map process_timeout now jobs halive] at hj
  obtain ⟨j0, hj0, rfl⟩ := List.mem_map.mp hj
  have ht := jobTickUpdate_time_started process_timeout now j0
  constructor
  · intro h
    rw [ht] at h
    exact jobTickUpdate_interrupt process_timeout now j0 h
  · intro h
    rw [ht] at h
    exact jobTickUpdate_kill process_timeout now j0 h

/-- C1 witness: a tick over a registry holding one alive, long-overdue job
sets its interrupt event and issues the kill. -/
theorem C1_witness :
    (∀ j ∈ [overdueEntry], j.alive = true) ∧
    ∀ j ∈ processes_watchdog_tick 10 100 [overdueEntry],
      ((10 : Rat) ≤ 100 - j.time_started → j.interrupt_set = true) ∧
      ((10 : Rat) + EXIT_WAIT_TIME ≤ 100 - j.time_started → j.kill_issued = true) :=
  ⟨by decide, C1_watchdog_two_phase_escalation 10 100 [overdueEntry] (by decide)⟩
